import Mathlib

/-!
Verification development for the employee-management repository.

Part A embeds the Express/SQLite REST server from `src/server.js`:
the `employees` table, the `validateEmployee` helper, and the CRUD route
handlers, as pure functions over an explicit database state.

Part B models the real-time chat relay core described by the repository's
chat design proposal (`docs/CHAT_FEATURE_TECHNICAL_DESIGN.md`) and the
specification derived from it.  No implementation of that core exists in
the repository, so every definition in Part B is modelled from the spec;
each such definition says so in its doc comment.
-/

namespace EmployeeApp

/-- A row of the `employees` table (`initDatabase` in server.js):
`id INTEGER PRIMARY KEY AUTOINCREMENT`, and five `TEXT NOT NULL` columns. -/
structure Employee where
  id : Nat
  name : String
  email : String
  department : String
  role : String
  hireDate : String
deriving Repr, DecidableEq

/-- The JSON request body of POST/PUT as the handlers see it: each of the
five fields may be absent (`none`) or present with a string value. -/
structure EmployeeBody where
  name : Option String
  email : Option String
  department : Option String
  role : Option String
  hireDate : Option String
deriving Repr, DecidableEq

/-- JS truthiness of a (possibly absent) string field: `undefined` and the
empty string are falsy, any other string is truthy (`!name` in
`validateEmployee`). -/
def truthy : Option String → Bool
  | none => false
  | some s => !s.isEmpty

/-- The whitespace class of the JS regex escape `\s` (ECMAScript
WhiteSpace plus LineTerminator): TAB, LF, VT, FF, CR, SP, NBSP, the
Ogham space mark U+1680, the Unicode space separators U+2000-U+200A,
U+202F, U+205F and U+3000, the line and paragraph separators U+2028 and
U+2029, and the byte-order mark U+FEFF. -/
def isJsWhitespace (c : Char) : Bool :=
  let n := c.toNat
  n == 0x9 || n == 0xA || n == 0xB || n == 0xC || n == 0xD || n == 0x20 ||
    n == 0xA0 || n == 0x1680 || (Nat.ble 0x2000 n && Nat.ble n 0x200A) ||
    n == 0x2028 || n == 0x2029 || n == 0x202F || n == 0x205F ||
    n == 0x3000 || n == 0xFEFF

/-- A character matched by the regex class `[^\s@]` of server.js line 56:
neither JS whitespace nor the at sign. -/
def isEmailChar (c : Char) : Bool := !isJsWhitespace c && c != '@'

/-- The test of the email regex `^[^\s@]+@[^\s@]+\.[^\s@]+$` from
`validateEmployee`.  A string matches exactly when it decomposes as
`u ++ "@" ++ v ++ "." ++ w` with `u`, `v`, `w` non-empty and free of
JS whitespace and `@`.  Since `u`, `v`, `w` cannot contain `@`, the
matched `@` is necessarily the only `@` of the string, so the
decomposition exists iff: the part before the first `@` is non-empty and
all email chars, the part after it is free of `@` and JS whitespace, and
that part contains a dot that is neither its first nor its last
character. -/
def emailRegexTest (s : String) : Bool :=
  let cs := s.toList
  let before := cs.takeWhile (fun c => c != '@')
  match cs.dropWhile (fun c => c != '@') with
  | [] => false
  | _ :: after =>
    !before.isEmpty && before.all isEmailChar &&
      after.all isEmailChar && ((after.drop 1).dropLast.contains '.')

/-- Result of `validateEmployee`: `{valid:true}` or
`{valid:false, message}`. -/
inductive Validation where
  | ok : Validation
  | bad : String → Validation
deriving Repr, DecidableEq

/-- The `validateEmployee` helper of server.js (lines 48-68).  The host
behaviour of `new Date(hireDate)` / `isNaN` is abstracted as the
parameter `jsDateOk` (true when the string parses as a date). -/
def validateEmployee (jsDateOk : String → Bool) (b : EmployeeBody) : Validation :=
  if !truthy b.name || !truthy b.email || !truthy b.department ||
      !truthy b.role || !truthy b.hireDate then
    .bad "All fields are required"
  else if !emailRegexTest (b.email.getD "") then
    .bad "Invalid email format"
  else if !jsDateOk (b.hireDate.getD "") then
    .bad "Invalid hire date format"
  else
    .ok

/-- State of the SQLite database: the rows of the `employees` table in
insertion order, and the AUTOINCREMENT counter for the next `id`. -/
structure DBState where
  rows : List Employee
  nextId : Nat
deriving Repr, DecidableEq

/-- An HTTP response sent by a handler: `res.json(rows)`,
`res.json(row)`, `res.status(n).json(error msg)`, or a message object. -/
inductive Outcome where
  | jsonRows : Nat → List Employee → Outcome
  | jsonRow : Nat → Employee → Outcome
  | jsonErr : Nat → String → Outcome
  | jsonMsg : Nat → String → Outcome
deriving Repr, DecidableEq

/-- The HTTP status code of a response. -/
def Outcome.status : Outcome → Nat
  | .jsonRows n _ => n
  | .jsonRow n _ => n
  | .jsonErr n _ => n
  | .jsonMsg n _ => n

/-- Whether the response body is an error object. -/
def Outcome.isErr : Outcome → Bool
  | .jsonErr _ _ => true
  | _ => false

instance : IsTotal Employee (fun a b => b.id ≤ a.id) :=
  ⟨fun a b => Nat.le_total b.id a.id⟩

instance : IsTrans Employee (fun a b => b.id ≤ a.id) :=
  ⟨fun _ _ _ h1 h2 => Nat.le_trans h2 h1⟩

/-- Rows in the order produced by `ORDER BY id DESC`. -/
def sortDesc (l : List Employee) : List Employee :=
  List.insertionSort (fun a b => b.id ≤ a.id) l

/-- GET `/api/employees` (server.js lines 73-83): `SELECT * FROM employees
ORDER BY id DESC`, answered with `res.json(rows)`; reads only. -/
def getAllEmployees (st : DBState) : Outcome × DBState :=
  (.jsonRows 200 (sortDesc st.rows), st)

/-- GET `/api/employees/:id` (server.js lines 86-100): `SELECT * FROM
employees WHERE id = ?` via `db.get` (first matching row); no row gives
404 `Employee not found`. -/
def getEmployeeById (st : DBState) (i : Nat) : Outcome × DBState :=
  match st.rows.find? (fun e => e.id == i) with
  | none => (.jsonErr 404 "Employee not found", st)
  | some e => (.jsonRow 200 e, st)

/-- POST `/api/employees` (server.js lines 117-149): validate, then
INSERT; a UNIQUE-constraint failure on `email` gives 400
`Email already exists`; success answers 201 with the new row (id from
`this.lastID`). -/
def createEmployee (jsDateOk : String → Bool) (st : DBState) (b : EmployeeBody) :
    Outcome × DBState :=
  match validateEmployee jsDateOk b with
  | .bad m => (.jsonErr 400 m, st)
  | .ok =>
    let name := b.name.getD ""
    let email := b.email.getD ""
    let dept := b.department.getD ""
    let role := b.role.getD ""
    let hire := b.hireDate.getD ""
    if st.rows.any (fun e => e.email == email) then
      (.jsonErr 400 "Email already exists", st)
    else
      let emp : Employee := ⟨st.nextId, name, email, dept, role, hire⟩
      (.jsonRow 201 emp, ⟨st.rows ++ [emp], st.nextId + 1⟩)

/-- The row update performed by the UPDATE statement of the PUT handler:
the row with the given id receives the five new column values. -/
def applyUpdate (i : Nat) (name email dept role hire : String) :
    List Employee → List Employee
  | [] => []
  | e :: rest =>
    (if e.id == i then ⟨e.id, name, email, dept, role, hire⟩ else e) ::
      applyUpdate i name email dept role hire rest

/-- PUT `/api/employees/:id` (server.js lines 152-190): validate, then
`UPDATE employees SET ... WHERE id = ?`.  A UNIQUE failure on `email`
(the new email already held by a different row, while a row matches the
id) gives 400; `this.changes === 0` (no row matches) gives 404; success
answers with the updated row. -/
def updateEmployee (jsDateOk : String → Bool) (st : DBState) (i : Nat)
    (b : EmployeeBody) : Outcome × DBState :=
  match validateEmployee jsDateOk b with
  | .bad m => (.jsonErr 400 m, st)
  | .ok =>
    let name := b.name.getD ""
    let email := b.email.getD ""
    let dept := b.department.getD ""
    let role := b.role.getD ""
    let hire := b.hireDate.getD ""
    if st.rows.all (fun e => e.id != i) then
      (.jsonErr 404 "Employee not found", st)
    else if st.rows.any (fun e => e.id != i && e.email == email) then
      (.jsonErr 400 "Email already exists", st)
    else
      (.jsonRow 200 ⟨i, name, email, dept, role, hire⟩,
        ⟨applyUpdate i name email dept role hire st.rows, st.nextId⟩)

/-- DELETE `/api/employees/:id` (server.js lines 193-209): `DELETE FROM
employees WHERE id = ?`; `this.changes === 0` gives 404, otherwise a
success message. -/
def deleteEmployee (st : DBState) (i : Nat) : Outcome × DBState :=
  if st.rows.all (fun e => e.id != i) then
    (.jsonErr 404 "Employee not found", st)
  else
    (.jsonMsg 200 "Employee deleted successfully",
      ⟨st.rows.filter (fun e => e.id != i), st.nextId⟩)

/-- A request body with every field absent (used as a concrete input). -/
def emptyBody : EmployeeBody := ⟨none, none, none, none, none⟩

/-- A request body that passes validation (used as a concrete input). -/
def validBody : EmployeeBody :=
  ⟨some "Ada", some "ada@ex.com", some "Eng", some "Dev", some "2024-01-01"⟩

/-- A concrete employee row with id 2, used as a concrete input. -/
def empRow2 : Employee := ⟨2, "Bo", "bo@ex.com", "Ops", "Mgr", "2023-05-05"⟩

/-- A concrete employee row with id 5, used as a concrete input. -/
def empRow5 : Employee := ⟨5, "Cy", "cy@ex.com", "HR", "Lead", "2022-03-03"⟩

end EmployeeApp

namespace Chat

/-- Modelled from the spec: the message kind tag of a Message Envelope
(text/image/file/system); no chat implementation exists in the
repository. -/
inductive MsgKind where
  | text
  | image
  | file
  | system
deriving Repr, DecidableEq

/-- Modelled from the spec: the client send request shape of section 6
(clientToken, chatId, ciphertext, recipientKeys, iv, kind, replyTo),
with identities and ids as naturals and opaque blobs as strings. -/
structure SendRequest where
  clientToken : String
  chatId : Nat
  senderId : Nat
  ciphertext : String
  recipientKeys : List (Nat × String)
  iv : String
  kind : MsgKind
  replyTo : Option Nat
deriving Repr, DecidableEq

/-- Modelled from the spec: the Message Envelope of section 3 — the
server-assigned message id, the fields copied from the request, the
client idempotency token, the server creation timestamp, and the
soft-delete marker. -/
structure Envelope where
  messageId : Nat
  chatId : Nat
  senderId : Nat
  clientToken : String
  ciphertext : String
  recipientKeys : List (Nat × String)
  iv : String
  kind : MsgKind
  replyTo : Option Nat
  createdAt : Nat
  deleted : Bool
deriving Repr, DecidableEq

/-- Modelled from the spec: the durable state behind the Message Store
Adapter — the committed envelopes in commit order, the next message id
(server-assigned, monotonically orderable within a chat), and the server
clock used for authoritative timestamps. -/
structure Store where
  envelopes : List Envelope
  nextId : Nat
  clock : Nat
deriving Repr, DecidableEq

/-- Modelled from the spec: lookup of a previously committed envelope
carrying a given idempotency token in a given chat (the duplicate check
of `append`). -/
def findByToken (st : Store) (chatId : Nat) (token : String) : Option Envelope :=
  st.envelopes.find? (fun e => e.chatId == chatId && e.clientToken == token)

/-- Modelled from the spec: the envelope `append` commits for a request —
fresh id from the store's counter, timestamp from the server clock,
soft-delete marker clear. -/
def Store.freshEnv (st : Store) (req : SendRequest) : Envelope :=
  ⟨st.nextId, req.chatId, req.senderId, req.clientToken, req.ciphertext,
    req.recipientKeys, req.iv, req.kind, req.replyTo, st.clock, false⟩

/-- Modelled from the spec: the result of Message Store Adapter `append` —
either a committed envelope with the updated store, or
`DuplicateClientToken` carrying the previously committed envelope. -/
inductive AppendResult where
  | committed : Envelope → Store → AppendResult
  | duplicate : Envelope → AppendResult
deriving Repr, DecidableEq

/-- Modelled from the spec: Message Store Adapter `append(envelope)` of
section 4.5 — fails with `DuplicateClientToken` if the client-supplied
idempotency token was already committed for the chat, otherwise commits
an envelope with the assigned id and timestamp. -/
def Store.append (st : Store) (req : SendRequest) : AppendResult :=
  match findByToken st req.chatId req.clientToken with
  | some e => .duplicate e
  | none =>
    .committed (st.freshEnv req)
      ⟨st.envelopes ++ [st.freshEnv req], st.nextId + 1, st.clock + 1⟩

/-- Modelled from the spec: result of `markDeleted` — the updated store,
or `Forbidden` when the actor is not the original sender. -/
inductive DeleteResult where
  | ok : Store → DeleteResult
  | forbidden : DeleteResult
deriving Repr, DecidableEq

/-- Modelled from the spec: a copy of an envelope with the soft-delete
marker set. -/
def Envelope.markDel (e : Envelope) : Envelope :=
  ⟨e.messageId, e.chatId, e.senderId, e.clientToken, e.ciphertext,
    e.recipientKeys, e.iv, e.kind, e.replyTo, e.createdAt, true⟩

/-- Modelled from the spec: a copy of an envelope with the soft-delete
marker cleared; two envelopes agree on everything but the marker iff
their images under `clearDel` are equal. -/
def Envelope.clearDel (e : Envelope) : Envelope :=
  ⟨e.messageId, e.chatId, e.senderId, e.clientToken, e.ciphertext,
    e.recipientKeys, e.iv, e.kind, e.replyTo, e.createdAt, false⟩

/-- Modelled from the spec: set the soft-delete marker on the envelope
with the given message id, leaving every other envelope in place. -/
def setDeleted (mid : Nat) : List Envelope → List Envelope
  | [] => []
  | e :: rest =>
    if e.messageId == mid then e.markDel :: rest
    else e :: setDeleted mid rest

/-- Modelled from the spec: Message Store Adapter
`markDeleted(messageId, actingIdentity)` of section 4.5 — fails with
`Forbidden` unless the actor is the original sender; on success only the
soft-delete marker is set, the envelope is never physically removed. -/
def Store.markDeleted (st : Store) (mid : Nat) (actor : Nat) : DeleteResult :=
  match st.envelopes.find? (fun e => e.messageId == mid) with
  | none => .forbidden
  | some e =>
    if e.senderId == actor then
      .ok ⟨setDeleted mid st.envelopes, st.nextId, st.clock⟩
    else .forbidden

/-- Modelled from the spec: one event on the Fanout Bus — the per-chat
topic, the publishing server instance, and the envelope payload. -/
structure BusEvent where
  topic : Nat
  publisherInstance : Nat
  payload : Envelope
deriving Repr, DecidableEq

/-- Modelled from the spec: the Fanout Bus as the global log of published
events in publish order; per-topic, per-publisher publish order is the
order of the log. -/
abbrev Bus := List BusEvent

/-- Modelled from the spec: Fanout Bus `publish(topic, payload)` of
section 4.4 — appends the event to the log. -/
def publish (bus : Bus) (inst : Nat) (topic : Nat) (env : Envelope) : Bus :=
  bus ++ [⟨topic, inst, env⟩]

/-- Modelled from the spec: what a subscriber to a topic observes — the
payloads published to that topic, in publish order (section 4.4: publish
order within a single topic from a single publisher is preserved). -/
def subscriberView (bus : Bus) (topic : Nat) : List Envelope :=
  (bus.filter (fun ev => ev.topic == topic)).map (fun ev => ev.payload)

/-- Modelled from the spec: the error taxonomy of section 7 that the
relay engine surfaces on a send. -/
inductive SendError where
  | unauthorized
  | incompleteRecipients
  | sendFailed
deriving Repr, DecidableEq

/-- Modelled from the spec: the outcome of a send — `Acknowledged` with
the server-assigned message id and timestamp, or a terminal failure. -/
inductive SendResult where
  | acknowledged : Nat → Nat → SendResult
  | failed : SendError → SendResult
deriving Repr, DecidableEq

/-- Modelled from the spec: whether the request's recipient-key map has
an entry for an identity. -/
def hasKeyFor (req : SendRequest) (ident : Nat) : Bool :=
  req.recipientKeys.any (fun kv => kv.1 == ident)

/-- Modelled from the spec: the `Received → Authorized` transition of the
relay engine (section 4.6) — the sender must be a current participant of
the chat, and the recipient-key map must cover all current participants;
failures are `Unauthorized` and `IncompleteRecipients`. -/
def authorize (participantsOf : Nat → List Nat) (req : SendRequest) :
    Option SendError :=
  let parts := participantsOf req.chatId
  if !parts.contains req.senderId then some .unauthorized
  else if !parts.all (hasKeyFor req) then some .incompleteRecipients
  else none

/-- Modelled from the spec: the bounded internal retry of
`Authorized → Persisted` (section 4.6) — attempt `k` consults the store
availability schedule `storeAvail`; an unavailable store costs one of the
bounded attempts, an available store performs the `append`; exhausting
the attempts surfaces the store failure. -/
def persistLoop (storeAvail : Nat → Bool) (st : Store) (req : SendRequest) :
    Nat → Nat → Option AppendResult
  | _, 0 => none
  | k, fuel + 1 =>
    if storeAvail k then some (st.append req)
    else persistLoop storeAvail st req (k + 1) fuel

/-- Modelled from the spec: the relay engine's per-send state machine of
section 4.6 (`Received → Authorized → Persisted → Published →
Acknowledged`, terminal `Failed`): authorization, persistence with
bounded retry and `DuplicateClientToken` short-circuit to `Acknowledged`
on the previously committed envelope, fanout publish whose failure
(`busAvail = false`) is logged and never fails the send nor rolls back
persistence, then acknowledgment with the assigned id and timestamp. -/
def send (participantsOf : Nat → List Nat) (inst : Nat) (busAvail : Bool)
    (storeAvail : Nat → Bool) (maxAttempts : Nat)
    (req : SendRequest) (st : Store) (bus : Bus) :
    SendResult × Store × Bus :=
  match authorize participantsOf req with
  | some e => (.failed e, st, bus)
  | none =>
    match persistLoop storeAvail st req 0 maxAttempts with
    | none => (.failed .sendFailed, st, bus)
    | some (.duplicate e) => (.acknowledged e.messageId e.createdAt, st, bus)
    | some (.committed env st2) =>
      let bus2 := if busAvail then publish bus inst req.chatId env else bus
      (.acknowledged env.messageId env.createdAt, st2, bus2)

/-- Modelled from the spec: store invariant — at most one committed
envelope per (chat, idempotency token) pair. -/
def TokenUnique (st : Store) : Prop :=
  ∀ chatId tok,
    st.envelopes.countP
      (fun e => e.chatId == chatId && e.clientToken == tok) ≤ 1

/-- Modelled from the spec: store invariant — every committed envelope's
id is below the store's next-id counter (ids are assigned from the
counter, so committed ids never reach it). -/
def IdsBounded (st : Store) : Prop :=
  ∀ e ∈ st.envelopes, e.messageId < st.nextId

/-- A concrete two-participant chat map (participants 1 and 2 of chat 0)
used as a concrete input. -/
def parts01 : Nat → List Nat := fun _ => [1, 2]

/-- A concrete valid send request for chat 0 from sender 1, with wrapped
keys for both participants, used as a concrete input. -/
def req0 : SendRequest :=
  ⟨"t1", 0, 1, "AB==", [(1, "k1"), (2, "k2")], "00", .text, none⟩

/-- The empty store, used as a concrete input. -/
def store0 : Store := ⟨[], 0, 0⟩

/-- The store holding the single envelope committed by a first send of
`req0`, used as a concrete input. -/
def st01 : Store := ⟨[store0.freshEnv req0], 1, 1⟩

/-- A second valid send request for chat 0 from sender 1 with a fresh
idempotency token, used as a concrete input. -/
def req1 : SendRequest :=
  ⟨"t2", 0, 1, "CD==", [(1, "k3"), (2, "k4")], "01", .text, none⟩

/-- A send request for chat 0 from sender 1 whose recipient-key map is
missing participant 2, used as a concrete input. -/
def reqMiss : SendRequest :=
  ⟨"t3", 0, 1, "AB==", [(1, "k1")], "00", .text, none⟩

/-- A send request for chat 0 from the non-participant sender 9 with an
empty recipient-key map, used as a concrete input. -/
def reqBad : SendRequest :=
  ⟨"t4", 0, 9, "AB==", [], "00", .text, none⟩

/-- A bus event on topic 0 from instance 0, used as a concrete input. -/
def evA : BusEvent := ⟨0, 0, store0.freshEnv req0⟩

/-- A later bus event on topic 0 from instance 0, used as a concrete
input. -/
def evB : BusEvent := ⟨0, 0, st01.freshEnv req1⟩

/-- A bus event on the unrelated topic 7, used as a concrete input. -/
def evOther : BusEvent := ⟨7, 1, store0.freshEnv reqMiss⟩

end Chat


namespace EmployeeApp

theorem validate_ok_iff (d : String → Bool) (b : EmployeeBody) :
    validateEmployee d b = .ok ↔
      truthy b.name = true ∧ truthy b.email = true ∧
        truthy b.department = true ∧ truthy b.role = true ∧
        truthy b.hireDate = true ∧ emailRegexTest (b.email.getD "") = true ∧
        d (b.hireDate.getD "") = true := by
  cases h1 : truthy b.name <;> cases h2 : truthy b.email <;>
    cases h3 : truthy b.department <;> cases h4 : truthy b.role <;>
      cases h5 : truthy b.hireDate <;>
        cases h6 : emailRegexTest (b.email.getD "") <;>
          cases h7 : d (b.hireDate.getD "") <;>
            simp [validateEmployee, h1, h2, h3, h4, h5, h6, h7]

theorem validate_bad_of (d : String → Bool) (b : EmployeeBody)
    (h : truthy b.name = false ∨ truthy b.email = false ∨
      truthy b.department = false ∨ truthy b.role = false ∨
      truthy b.hireDate = false ∨ emailRegexTest (b.email.getD "") = false ∨
      d (b.hireDate.getD "") = false) :
    ∃ m, validateEmployee d b = .bad m := by
  cases hv : validateEmployee d b with
  | bad m => exact ⟨m, rfl⟩
  | ok =>
    obtain ⟨a1, a2, a3, a4, a5, a6, a7⟩ := (validate_ok_iff d b).mp hv
    rcases h with h | h | h | h | h | h | h <;> simp_all

/-- C8: a POST or PUT whose body has a missing or empty field, an email
rejected by the regex, or a hire date that does not parse, is answered
with status 400 and an error message, and the employees table is left
unchanged. -/
theorem c8_validation_rejects (d : String → Bool) (st : DBState) (i : Nat)
    (b : EmployeeBody)
    (h : truthy b.name = false ∨ truthy b.email = false ∨
      truthy b.department = false ∨ truthy b.role = false ∨
      truthy b.hireDate = false ∨ emailRegexTest (b.email.getD "") = false ∨
      d (b.hireDate.getD "") = false) :
    (createEmployee d st b).1.status = 400 ∧
      (createEmployee d st b).1.isErr = true ∧
      (createEmployee d st b).2 = st ∧
      (updateEmployee d st i b).1.status = 400 ∧
      (updateEmployee d st i b).1.isErr = true ∧
      (updateEmployee d st i b).2 = st := by
  obtain ⟨m, hm⟩ := validate_bad_of d b h
  simp [createEmployee, updateEmployee, hm, Outcome.status, Outcome.isErr]

/-- C8 witness at a concrete input: the all-absent body is rejected by
both handlers with a 400 error and the table is untouched. -/
theorem c8_validation_rejects_witness :
    truthy emptyBody.name = false ∧
      (createEmployee (fun _ => true) ⟨[], 1⟩ emptyBody).1.status = 400 ∧
      (createEmployee (fun _ => true) ⟨[], 1⟩ emptyBody).1.isErr = true ∧
      (createEmployee (fun _ => true) ⟨[], 1⟩ emptyBody).2 = ⟨[], 1⟩ ∧
      (updateEmployee (fun _ => true) ⟨[], 1⟩ 7 emptyBody).1.status = 400 ∧
      (updateEmployee (fun _ => true) ⟨[], 1⟩ 7 emptyBody).1.isErr = true ∧
      (updateEmployee (fun _ => true) ⟨[], 1⟩ 7 emptyBody).2 = ⟨[], 1⟩ :=
  ⟨by decide, c8_validation_rejects (fun _ => true) ⟨[], 1⟩ 7 emptyBody
    (Or.inl (by decide))⟩

/-- C9 counterexample: with an empty table (so no row matches id 1) and a
request body that fails validation, PUT answers 400, not the claimed
404. -/
theorem c9_notfound_counterexample :
    ((DBState.mk [] 1).rows.all (fun e => e.id != 1)) = true ∧
      (updateEmployee (fun _ => true) ⟨[], 1⟩ 1 emptyBody).1.status = 400 ∧
      ¬ (updateEmployee (fun _ => true) ⟨[], 1⟩ 1 emptyBody).1.status = 404 := by
  decide

/-- C9 (amended): when no employee row matches the id, GET and DELETE
answer 404 with the error `Employee not found`, and PUT answers the same
404 provided its body passes validation (an invalid body is answered 400
by validation first); PUT and DELETE leave the table unchanged. -/
theorem c9_notfound (d : String → Bool) (st : DBState) (i : Nat)
    (b : EmployeeBody)
    (hno : st.rows.all (fun e => e.id != i) = true)
    (hv : validateEmployee d b = .ok) :
    getEmployeeById st i = (.jsonErr 404 "Employee not found", st) ∧
      updateEmployee d st i b = (.jsonErr 404 "Employee not found", st) ∧
      deleteEmployee st i = (.jsonErr 404 "Employee not found", st) := by
  have hfind : st.rows.find? (fun e => e.id == i) = none := by
    refine List.find?_eq_none.mpr (fun e he => ?_)
    have := List.all_eq_true.mp hno e he
    simpa using this
  refine ⟨?_, ?_, ?_⟩
  · simp [getEmployeeById, hfind]
  · simp [updateEmployee, hv, hno]
  · simp [deleteEmployee, hno]

/-- C9 witness at a concrete input: a one-row table holding only id 2,
queried at id 1 with a valid body. -/
theorem c9_notfound_witness :
    ((DBState.mk [empRow2] 3).rows.all (fun e => e.id != 1)) = true ∧
      validateEmployee (fun _ => true) validBody = .ok ∧
      getEmployeeById ⟨[empRow2], 3⟩ 1 =
        (.jsonErr 404 "Employee not found", ⟨[empRow2], 3⟩) ∧
      updateEmployee (fun _ => true) ⟨[empRow2], 3⟩ 1 validBody =
        (.jsonErr 404 "Employee not found", ⟨[empRow2], 3⟩) ∧
      deleteEmployee ⟨[empRow2], 3⟩ 1 =
        (.jsonErr 404 "Employee not found", ⟨[empRow2], 3⟩) := by
  refine ⟨by decide, by decide, ?_⟩
  exact c9_notfound (fun _ => true) ⟨[empRow2], 3⟩ 1 validBody (by decide)
    (by decide)

/-- C10: GET on the employee collection answers 200 with exactly the rows
of the table (a permutation of them), sorted strictly descending by id
when the ids are distinct (the primary-key invariant), and does not
modify the table. -/
theorem c10_get_all_sorted (st : DBState)
    (hids : (st.rows.map Employee.id).Nodup) :
    getAllEmployees st = (.jsonRows 200 (sortDesc st.rows), st) ∧
      List.Perm (sortDesc st.rows) st.rows ∧
      (sortDesc st.rows).Pairwise (fun a b => b.id < a.id) := by
  have hperm : List.Perm (sortDesc st.rows) st.rows :=
    List.perm_insertionSort _ _
  refine ⟨rfl, hperm, ?_⟩
  have hsorted : (sortDesc st.rows).Pairwise (fun a b => b.id ≤ a.id) :=
    List.sorted_insertionSort _ _
  have hnd : ((sortDesc st.rows).map Employee.id).Nodup :=
    (hperm.map Employee.id).nodup_iff.mpr hids
  have hne : (sortDesc st.rows).Pairwise (fun a b => a.id ≠ b.id) :=
    List.pairwise_map.mp hnd
  exact (hsorted.and hne).imp
    (fun h => Nat.lt_of_le_of_ne h.1 (fun heq => h.2 heq.symm))

/-- C10 witness at a concrete input: a two-row table with ids 2 and 5 is
returned in the order 5, 2, untouched. -/
theorem c10_get_all_sorted_witness :
    (((DBState.mk [empRow2, empRow5] 6).rows.map Employee.id)).Nodup ∧
      getAllEmployees ⟨[empRow2, empRow5], 6⟩ =
        (.jsonRows 200 (sortDesc [empRow2, empRow5]), ⟨[empRow2, empRow5], 6⟩) ∧
      List.Perm (sortDesc [empRow2, empRow5]) [empRow2, empRow5] ∧
      (sortDesc [empRow2, empRow5]).Pairwise (fun a b => b.id < a.id) :=
  ⟨by decide, c10_get_all_sorted ⟨[empRow2, empRow5], 6⟩ (by decide)⟩

end EmployeeApp

namespace Chat

theorem persistLoop_allAvail (st : Store) (req : SendRequest) (m : Nat) :
    persistLoop (fun _ => true) st req 0 (m + 1) = some (st.append req) := rfl

theorem persistLoop_av3 (st : Store) (req : SendRequest) (m : Nat) :
    persistLoop (fun k => Nat.ble 3 k) st req 0 (m + 4) = some (st.append req) := rfl

theorem findByToken_append_fresh (st : Store) (req : SendRequest)
    (h : findByToken st req.chatId req.clientToken = none) :
    findByToken ⟨st.envelopes ++ [st.freshEnv req], st.nextId + 1, st.clock + 1⟩
      req.chatId req.clientToken = some (st.freshEnv req) := by
  unfold findByToken at h ⊢
  rw [List.find?_append, h]
  simp [Store.freshEnv]

theorem countP_token_zero (st : Store) (c : Nat) (t : String)
    (h : findByToken st c t = none) :
    st.envelopes.countP (fun e => e.chatId == c && e.clientToken == t) = 0 := by
  refine List.countP_eq_zero.mpr (fun e he => ?_)
  exact List.find?_eq_none.mp h e he

theorem send_fresh (p : Nat → List Nat) (inst : Nat) (b : Bool)
    (av : Nat → Bool) (m : Nat) (req : SendRequest) (st : Store) (bus : Bus)
    (hauth : authorize p req = none)
    (hp : persistLoop av st req 0 m = some (st.append req))
    (hfresh : findByToken st req.chatId req.clientToken = none) :
    send p inst b av m req st bus =
      (.acknowledged st.nextId st.clock,
        ⟨st.envelopes ++ [st.freshEnv req], st.nextId + 1, st.clock + 1⟩,
        if b then publish bus inst req.chatId (st.freshEnv req) else bus) := by
  simp [send, hauth, hp, Store.append, hfresh, Store.freshEnv]

theorem send_dup (p : Nat → List Nat) (inst : Nat) (b : Bool)
    (av : Nat → Bool) (m : Nat) (req : SendRequest) (st : Store) (bus : Bus)
    (e : Envelope)
    (hauth : authorize p req = none)
    (hp : persistLoop av st req 0 m = some (st.append req))
    (hfind : findByToken st req.chatId req.clientToken = some e) :
    send p inst b av m req st bus =
      (.acknowledged e.messageId e.createdAt, st, bus) := by
  simp [send, hauth, hp, Store.append, hfind]

/-- C1: if a send of a request is acknowledged with message id `mid`,
re-invoking the send with the same clientToken for the same chat (the
whole request retried) is again acknowledged with the same id, commits
nothing new, and the store holds exactly one envelope for that
(chat, clientToken) pair. -/
theorem c1_idempotent_send (p : Nat → List Nat) (inst : Nat) (b1 b2 : Bool)
    (m : Nat) (req : SendRequest) (st : Store) (bus : Bus)
    (mid ts : Nat) (st1 : Store) (bus1 : Bus)
    (huniq : TokenUnique st)
    (h : send p inst b1 (fun _ => true) (m + 1) req st bus =
      (.acknowledged mid ts, st1, bus1)) :
    send p inst b2 (fun _ => true) (m + 1) req st1 bus1 =
      (.acknowledged mid ts, st1, bus1) ∧
      st1.envelopes.countP
        (fun e => e.chatId == req.chatId && e.clientToken == req.clientToken)
        = 1 := by
  cases hauth : authorize p req with
  | some e => simp [send, hauth] at h
  | none =>
    cases hfind : findByToken st req.chatId req.clientToken with
    | some e =>
      have hfind' : st.envelopes.find?
          (fun x => x.chatId == req.chatId && x.clientToken == req.clientToken)
          = some e := hfind
      rw [send_dup p inst b1 (fun _ => true) (m + 1) req st bus e hauth
        (persistLoop_allAvail st req m) hfind] at h
      simp only [Prod.mk.injEq, SendResult.acknowledged.injEq] at h
      obtain ⟨⟨hmid, hts⟩, hst, hbus⟩ := h
      subst hmid hts hst hbus
      constructor
      · exact send_dup p inst b2 (fun _ => true) (m + 1) req st bus e hauth
          (persistLoop_allAvail st req m) hfind
      · have hpe := List.find?_some hfind'
        simp only [] at hpe
        have hmem : e ∈ st.envelopes := List.mem_of_find?_eq_some hfind'
        have hpos : 0 < st.envelopes.countP
            (fun x => x.chatId == req.chatId && x.clientToken == req.clientToken) :=
          List.countP_pos_iff.mpr ⟨e, hmem, hpe⟩
        exact Nat.le_antisymm (huniq req.chatId req.clientToken) hpos
    | none =>
      rw [send_fresh p inst b1 (fun _ => true) (m + 1) req st bus hauth
        (persistLoop_allAvail st req m) hfind] at h
      simp only [Prod.mk.injEq, SendResult.acknowledged.injEq] at h
      obtain ⟨⟨hmid, hts⟩, hst, hbus⟩ := h
      have hfind2 : findByToken st1 req.chatId req.clientToken
          = some (st.freshEnv req) := by
        rw [← hst]
        exact findByToken_append_fresh st req hfind
      constructor
      · have := send_dup p inst b2 (fun _ => true) (m + 1) req st1 bus1
          (st.freshEnv req) hauth (persistLoop_allAvail st1 req m) hfind2
        rw [this]
        simp [Store.freshEnv, hmid, hts]
      · rw [← hst]
        simp only [List.countP_append]
        rw [countP_token_zero st req.chatId req.clientToken hfind]
        simp [Store.freshEnv]

/-- C1 witness at a concrete input: sending `req0` to the empty store is
acknowledged with id 0; resending the identical request is again
acknowledged with id 0 and the store still holds exactly one envelope
for (chat 0, token "t1"). -/
theorem c1_idempotent_send_witness :
    TokenUnique store0 ∧
      send parts01 0 true (fun _ => true) 1 req0 store0 [] =
        (.acknowledged 0 0, ⟨[store0.freshEnv req0], 1, 1⟩,
          publish [] 0 0 (store0.freshEnv req0)) ∧
      (send parts01 0 true (fun _ => true) 1 req0
          ⟨[store0.freshEnv req0], 1, 1⟩ (publish [] 0 0 (store0.freshEnv req0)) =
        (.acknowledged 0 0, ⟨[store0.freshEnv req0], 1, 1⟩,
          publish [] 0 0 (store0.freshEnv req0)) ∧
        (⟨[store0.freshEnv req0], 1, 1⟩ : Store).envelopes.countP
          (fun e => e.chatId == req0.chatId && e.clientToken == req0.clientToken)
          = 1) :=
  ⟨fun _ _ => by simp [store0], by decide,
    c1_idempotent_send parts01 0 true true 0 req0 store0 [] 0 0
      ⟨[store0.freshEnv req0], 1, 1⟩ (publish [] 0 0 (store0.freshEnv req0))
      (fun _ _ => by simp [store0]) (by decide)⟩

/-- C2 counterexample: on a store already holding the committed envelope
of token "t1" (chat 0, message id 0), retrying the same send is
acknowledged — a valid acknowledged send — yet the returned id 0 is not
strictly greater than the previously committed id 0 in the same chat. -/
theorem c2_monotone_ids_counterexample :
    (send parts01 0 true (fun _ => true) 1 req0 st01 []).1 =
      SendResult.acknowledged 0 0 ∧
      st01.envelopes.map Envelope.chatId = [req0.chatId] ∧
      st01.envelopes.map Envelope.messageId = [0] ∧
      ¬ (0 : Nat) < 0 := by
  decide

/-- C2 (amended): an acknowledged send whose clientToken was not already
committed in the chat — a send that commits a new envelope rather than
short-circuiting on DuplicateClientToken — returns a message id strictly
greater than every id previously committed in the same chat, and the
bounded-ids invariant is preserved, so ids increase monotonically along
the commit sequence. -/
theorem c2_monotone_ids (p : Nat → List Nat) (inst : Nat) (b : Bool) (m : Nat)
    (req : SendRequest) (st : Store) (bus : Bus) (mid ts : Nat) (st1 : Store)
    (bus1 : Bus)
    (hbound : IdsBounded st)
    (hfresh : findByToken st req.chatId req.clientToken = none)
    (h : send p inst b (fun _ => true) (m + 1) req st bus =
      (.acknowledged mid ts, st1, bus1)) :
    (∀ e ∈ st.envelopes, e.chatId = req.chatId → e.messageId < mid) ∧
      IdsBounded st1 := by
  cases hauth : authorize p req with
  | some e => simp [send, hauth] at h
  | none =>
    rw [send_fresh p inst b (fun _ => true) (m + 1) req st bus hauth
      (persistLoop_allAvail st req m) hfresh] at h
    simp only [Prod.mk.injEq, SendResult.acknowledged.injEq] at h
    obtain ⟨⟨hmid, _⟩, hst, _⟩ := h
    constructor
    · intro e he _
      rw [← hmid]
      exact hbound e he
    · rw [← hst]
      intro e he
      rcases List.mem_append.mp he with h1 | h1
      · exact Nat.lt_succ_of_lt (hbound e h1)
      · have : e = st.freshEnv req := by simpa using h1
        rw [this]
        exact Nat.lt_succ_self st.nextId

/-- C2 witness at a concrete input: sending the fresh token "t2" to the
one-envelope store acknowledges with id 1, strictly above the previously
committed id 0 of chat 0. -/
theorem c2_monotone_ids_witness :
    IdsBounded st01 ∧
      findByToken st01 req1.chatId req1.clientToken = none ∧
      send parts01 0 true (fun _ => true) 1 req1 st01 [] =
        (.acknowledged 1 1, ⟨st01.envelopes ++ [st01.freshEnv req1], 2, 2⟩,
          publish [] 0 0 (st01.freshEnv req1)) ∧
      ((∀ e ∈ st01.envelopes, e.chatId = req1.chatId → e.messageId < 1) ∧
        IdsBounded (⟨st01.envelopes ++ [st01.freshEnv req1], 2, 2⟩ : Store)) :=
  ⟨by unfold IdsBounded; decide, by decide, by decide,
    c2_monotone_ids parts01 0 true 0 req1 st01 [] 1 1
      ⟨st01.envelopes ++ [st01.freshEnv req1], 2, 2⟩
      (publish [] 0 0 (st01.freshEnv req1)) (by unfold IdsBounded; decide)
      (by decide) (by decide)⟩

theorem persistLoop_eq_append (av : Nat → Bool) (st : Store)
    (req : SendRequest) :
    ∀ k fuel ar, persistLoop av st req k fuel = some ar →
      ar = st.append req := by
  intro k fuel
  induction fuel generalizing k with
  | zero => intro ar h; simp [persistLoop] at h
  | succ n ih =>
    intro ar h
    by_cases hav : av k
    · simp [persistLoop, hav] at h
      exact h.symm
    · simp [persistLoop, hav] at h
      exact ih (k + 1) ar h

/-- C3 counterexample: participant 1 of chat 0 is missing from `reqBad`'s
recipient-key map, yet the send is rejected Unauthorized — the sender 9
is not a participant, and the engine checks sender membership first — so
the rejection is not the claimed IncompleteRecipients. -/
theorem c3_recipient_cover_counterexample :
    (parts01 reqBad.chatId).contains 1 = true ∧
      hasKeyFor reqBad 1 = false ∧
      send parts01 0 true (fun _ => true) 1 reqBad store0 [] =
        (.failed .unauthorized, store0, []) ∧
      SendResult.failed SendError.unauthorized ≠
        SendResult.failed SendError.incompleteRecipients := by
  decide

/-- C3 (amended): for a send whose sender is a current chat participant,
a recipient-key map missing any current participant makes the send fail
with IncompleteRecipients leaving the store untouched, and any envelope
the send commits carries a recipient-key entry for every current
participant (a non-participant sender is rejected Unauthorized first). -/
theorem c3_recipient_cover (p : Nat → List Nat) (inst : Nat) (b : Bool)
    (av : Nat → Bool) (m : Nat) (req : SendRequest) (st : Store) (bus : Bus)
    (res : SendResult) (st1 : Store) (bus1 : Bus)
    (hsender : (p req.chatId).contains req.senderId = true)
    (h : send p inst b av m req st bus = (res, st1, bus1)) :
    ((∃ q ∈ p req.chatId, hasKeyFor req q = false) →
      res = .failed .incompleteRecipients ∧ st1 = st) ∧
      (∀ e ∈ st1.envelopes, e ∉ st.envelopes →
        ∀ q ∈ p req.chatId, e.recipientKeys.any (fun kv => kv.1 == q) = true) := by
  have hsmem : req.senderId ∈ p req.chatId := by simpa using hsender
  constructor
  · rintro ⟨q, hq, hkey⟩
    have hall : (p req.chatId).all (hasKeyFor req) = false := by
      cases hca : (p req.chatId).all (hasKeyFor req)
      · rfl
      · have := List.all_eq_true.mp hca q hq
        rw [hkey] at this
        exact Bool.noConfusion this
    have hauth : authorize p req = some .incompleteRecipients := by
      simp [authorize, hsmem, hall]
    simp only [send, hauth] at h
    simp only [Prod.mk.injEq] at h
    exact ⟨h.1.symm, h.2.1.symm⟩
  · intro e he hnotin q hq
    cases hauth : authorize p req with
    | some err =>
      simp only [send, hauth, Prod.mk.injEq] at h
      rw [← h.2.1] at he
      exact absurd he hnotin
    | none =>
      have hkeys : (p req.chatId).all (hasKeyFor req) = true := by
        cases hall : (p req.chatId).all (hasKeyFor req)
        · exfalso
          simp [authorize, hsmem, hall] at hauth
        · rfl
      cases hp : persistLoop av st req 0 m with
      | none =>
        simp only [send, hauth, hp, Prod.mk.injEq] at h
        rw [← h.2.1] at he
        exact absurd he hnotin
      | some ar =>
        have har : ar = st.append req := persistLoop_eq_append av st req 0 m ar hp
        cases hfind : findByToken st req.chatId req.clientToken with
        | some e2 =>
          rw [har] at hp
          have happ : st.append req = .duplicate e2 := by
            simp [Store.append, hfind]
          rw [happ] at hp
          simp only [send, hauth, hp, Prod.mk.injEq] at h
          rw [← h.2.1] at he
          exact absurd he hnotin
        | none =>
          rw [har] at hp
          have happ : st.append req =
              .committed (st.freshEnv req)
                ⟨st.envelopes ++ [st.freshEnv req], st.nextId + 1, st.clock + 1⟩ := by
            simp [Store.append, hfind]
          rw [happ] at hp
          simp only [send, hauth, hp, Prod.mk.injEq] at h
          rw [← h.2.1] at he
          have hef : e = st.freshEnv req := by
            rcases List.mem_append.mp he with h1 | h1
            · exact absurd h1 hnotin
            · simpa using h1
          rw [hef]
          have := List.all_eq_true.mp hkeys q hq
          simpa [Store.freshEnv, hasKeyFor] using this

/-- C4: for a fresh authorized send, with the store available and the bus
down, the send still persists the envelope and acknowledges; the final
store equals the store of the successful-bus run — nothing is removed or
altered — and only the bus log differs. -/
theorem c4_bus_failure_safe (p : Nat → List Nat) (inst : Nat) (m : Nat)
    (req : SendRequest) (st : Store) (bus : Bus)
    (hauth : authorize p req = none)
    (hfresh : findByToken st req.chatId req.clientToken = none) :
    send p inst false (fun _ => true) (m + 1) req st bus =
      (.acknowledged st.nextId st.clock,
        ⟨st.envelopes ++ [st.freshEnv req], st.nextId + 1, st.clock + 1⟩, bus) ∧
      st.freshEnv req ∈ st.envelopes ++ [st.freshEnv req] ∧
      send p inst true (fun _ => true) (m + 1) req st bus =
        (.acknowledged st.nextId st.clock,
          ⟨st.envelopes ++ [st.freshEnv req], st.nextId + 1, st.clock + 1⟩,
          publish bus inst req.chatId (st.freshEnv req)) := by
  refine ⟨?_, ?_, ?_⟩
  · have := send_fresh p inst false (fun _ => true) (m + 1) req st bus hauth
      (persistLoop_allAvail st req m) hfresh
    simpa using this
  · exact List.mem_append_right _ (by simp)
  · have := send_fresh p inst true (fun _ => true) (m + 1) req st bus hauth
      (persistLoop_allAvail st req m) hfresh
    simpa using this

/-- C5: per-topic, per-publisher order preservation of the Fanout Bus —
when the bus log holds `ev1` somewhere before `ev2`, both on topic `t`
and published by the same instance, every subscriber to `t` observes
`ev1`'s payload strictly before `ev2`'s. -/
theorem c5_fanout_order (l1 l2 l3 : Bus) (ev1 ev2 : BusEvent) (t : Nat)
    (h1 : ev1.topic = t) (h2 : ev2.topic = t)
    (hpub : ev1.publisherInstance = ev2.publisherInstance) :
    subscriberView (l1 ++ ev1 :: l2 ++ ev2 :: l3) t =
      subscriberView l1 t ++
        ev1.payload ::
          (subscriberView l2 t ++ ev2.payload :: subscriberView l3 t) := by
  simp [subscriberView, List.filter_append, h1, h2]

/-- C6: a fresh authorized send retried against a store that is
unavailable on attempts 0, 1 and 2 and available from attempt 3 onwards
succeeds within any bound of at least four attempts: it is acknowledged
(never `SendFailed`) and commits exactly one envelope for its token. -/
theorem c6_store_retry (p : Nat → List Nat) (inst : Nat) (b : Bool) (m : Nat)
    (req : SendRequest) (st : Store) (bus : Bus)
    (hauth : authorize p req = none)
    (hfresh : findByToken st req.chatId req.clientToken = none) :
    send p inst b (fun k => Nat.ble 3 k) (m + 4) req st bus =
      (.acknowledged st.nextId st.clock,
        ⟨st.envelopes ++ [st.freshEnv req], st.nextId + 1, st.clock + 1⟩,
        if b then publish bus inst req.chatId (st.freshEnv req) else bus) ∧
      (st.envelopes ++ [st.freshEnv req]).countP
        (fun e => e.chatId == req.chatId && e.clientToken == req.clientToken)
        = 1 := by
  constructor
  · exact send_fresh p inst b (fun k => Nat.ble 3 k) (m + 4) req st bus hauth
      (persistLoop_av3 st req m) hfresh
  · rw [List.countP_append, countP_token_zero st req.chatId req.clientToken hfresh]
    simp [Store.freshEnv]

theorem setDeleted_clearDel (mid : Nat) :
    ∀ l : List Envelope,
      (setDeleted mid l).map Envelope.clearDel = l.map Envelope.clearDel := by
  intro l
  induction l with
  | nil => rfl
  | cons e rest ih =>
    cases hm : (e.messageId == mid)
    · simp [setDeleted, hm, ih]
    · simp [setDeleted, hm, Envelope.markDel, Envelope.clearDel]

theorem setDeleted_marks (mid : Nat) :
    ∀ l : List Envelope, ∀ env : Envelope,
      l.find? (fun e => e.messageId == mid) = some env →
        ∃ e' ∈ setDeleted mid l, e'.messageId = mid ∧ e'.deleted = true := by
  intro l
  induction l with
  | nil => intro env h; simp at h
  | cons e rest ih =>
    intro env h
    cases hm : (e.messageId == mid)
    · rw [List.find?_cons_of_neg _ (by simp [hm])] at h
      obtain ⟨e', he', hprop⟩ := ih env h
      exact ⟨e', by simp [setDeleted, hm, he'], hprop⟩
    · refine ⟨e.markDel, by simp [setDeleted, hm], ?_, rfl⟩
      have : e.messageId = mid := by simpa using hm
      simpa [Envelope.markDel] using this

/-- C7: for a store holding the message, `markDeleted` answers
`Forbidden` whenever the actor is not the original sender; when the
actor is the sender it only sets the soft-delete marker — the envelope
list keeps the same length, order and content up to the marker, the
target is marked, and nothing is physically removed. -/
theorem c7_mark_deleted (st : Store) (mid actor : Nat) (env : Envelope)
    (hfind : st.envelopes.find? (fun e => e.messageId == mid) = some env) :
    (env.senderId ≠ actor → st.markDeleted mid actor = .forbidden) ∧
      (env.senderId = actor →
        st.markDeleted mid actor =
          .ok ⟨setDeleted mid st.envelopes, st.nextId, st.clock⟩ ∧
          (setDeleted mid st.envelopes).map Envelope.clearDel =
            st.envelopes.map Envelope.clearDel ∧
          ∃ e' ∈ setDeleted mid st.envelopes,
            e'.messageId = mid ∧ e'.deleted = true) := by
  constructor
  · intro hne
    have hb : (env.senderId == actor) = false := by simp [hne]
    simp [Store.markDeleted, hfind, hb]
  · intro heq
    exact ⟨by simp [Store.markDeleted, hfind, heq],
      setDeleted_clearDel mid st.envelopes,
      setDeleted_marks mid st.envelopes env hfind⟩

/-- C3 witness at a concrete input: sender 1 is a participant of chat 0,
`reqMiss` lacks participant 2's key, and the send is rejected with
IncompleteRecipients leaving the empty store untouched. -/
theorem c3_recipient_cover_witness :
    (parts01 reqMiss.chatId).contains reqMiss.senderId = true ∧
      send parts01 0 true (fun _ => true) 1 reqMiss store0 [] =
        (.failed .incompleteRecipients, store0, []) ∧
      (((∃ q ∈ parts01 reqMiss.chatId, hasKeyFor reqMiss q = false) →
        SendResult.failed SendError.incompleteRecipients =
            SendResult.failed SendError.incompleteRecipients ∧
          store0 = store0) ∧
        (∀ e ∈ store0.envelopes, e ∉ store0.envelopes →
          ∀ q ∈ parts01 reqMiss.chatId,
            e.recipientKeys.any (fun kv => kv.1 == q) = true)) :=
  ⟨by decide, by decide,
    c3_recipient_cover parts01 0 true (fun _ => true) 1 reqMiss store0 []
      (.failed .incompleteRecipients) store0 [] (by decide) (by decide)⟩

/-- C4 witness at a concrete input: sending `req0` to the empty store
with the bus down persists the envelope, acknowledges, and yields the
same store as the bus-up run. -/
theorem c4_bus_failure_safe_witness :
    authorize parts01 req0 = none ∧
      findByToken store0 req0.chatId req0.clientToken = none ∧
      (send parts01 0 false (fun _ => true) 1 req0 store0 [] =
        (.acknowledged store0.nextId store0.clock,
          ⟨store0.envelopes ++ [store0.freshEnv req0], store0.nextId + 1,
            store0.clock + 1⟩, []) ∧
        store0.freshEnv req0 ∈ store0.envelopes ++ [store0.freshEnv req0] ∧
        send parts01 0 true (fun _ => true) 1 req0 store0 [] =
          (.acknowledged store0.nextId store0.clock,
            ⟨store0.envelopes ++ [store0.freshEnv req0], store0.nextId + 1,
              store0.clock + 1⟩,
            publish [] 0 req0.chatId (store0.freshEnv req0))) :=
  ⟨by decide, by decide,
    c4_bus_failure_safe parts01 0 0 req0 store0 [] (by decide) (by decide)⟩

/-- C5 witness at a concrete input: with an unrelated topic-7 event
interleaved between them, subscribers of topic 0 still observe `evA`'s
payload before `evB`'s. -/
theorem c5_fanout_order_witness :
    evA.topic = 0 ∧ evB.topic = 0 ∧
      evA.publisherInstance = evB.publisherInstance ∧
      subscriberView ([] ++ evA :: [evOther] ++ evB :: []) 0 =
        subscriberView [] 0 ++
          evA.payload ::
            (subscriberView [evOther] 0 ++ evB.payload :: subscriberView [] 0) :=
  ⟨rfl, rfl, rfl, c5_fanout_order [] [evOther] [] evA evB 0 rfl rfl rfl⟩

/-- C6 witness at a concrete input: sending `req0` to the empty store
with the store down on attempts 0-2 and up from attempt 3, under a bound
of 4 attempts, acknowledges and commits exactly one envelope. -/
theorem c6_store_retry_witness :
    authorize parts01 req0 = none ∧
      findByToken store0 req0.chatId req0.clientToken = none ∧
      (send parts01 0 true (fun k => Nat.ble 3 k) 4 req0 store0 [] =
        (.acknowledged store0.nextId store0.clock,
          ⟨store0.envelopes ++ [store0.freshEnv req0], store0.nextId + 1,
            store0.clock + 1⟩,
          if true then publish [] 0 req0.chatId (store0.freshEnv req0) else []) ∧
        (store0.envelopes ++ [store0.freshEnv req0]).countP
          (fun e => e.chatId == req0.chatId && e.clientToken == req0.clientToken)
          = 1) :=
  ⟨by decide, by decide,
    c6_store_retry parts01 0 true 0 req0 store0 [] (by decide) (by decide)⟩

/-- C7 witness at a concrete input: the one-envelope store holds message
0 sent by identity 1; identity 2 is refused with Forbidden, and the
sender branch is available as stated. -/
theorem c7_mark_deleted_witness :
    st01.envelopes.find? (fun e => e.messageId == 0) =
        some (store0.freshEnv req0) ∧
      ((store0.freshEnv req0).senderId ≠ 2 →
        st01.markDeleted 0 2 = .forbidden) ∧
      ((store0.freshEnv req0).senderId = 2 →
        st01.markDeleted 0 2 =
          .ok ⟨setDeleted 0 st01.envelopes, st01.nextId, st01.clock⟩ ∧
          (setDeleted 0 st01.envelopes).map Envelope.clearDel =
            st01.envelopes.map Envelope.clearDel ∧
          ∃ e' ∈ setDeleted 0 st01.envelopes,
            e'.messageId = 0 ∧ e'.deleted = true) :=
  ⟨by decide, (c7_mark_deleted st01 0 2 (store0.freshEnv req0) (by decide)).1,
    (c7_mark_deleted st01 0 2 (store0.freshEnv req0) (by decide)).2⟩

end Chat
